import Mathlib

/-!
Verification of the S3 storage backend (src/storage/s3.rs) of the docs.rs
blob-storage layer: the read path (S3Backend::get), the batched retry write
path (S3StorageTransaction::store_batch), the timestamp parser
(parse_timespec) and the client factory (s3_client), shallowly embedded as
executable Lean definitions.
-/

namespace DocsRs

/-- Timezone attached to a parsed instant. The code only ever constructs
the UTC zone via DateTime::from_utc(naive, Utc); other offsets exist in the
chrono library but are never produced here. -/
inductive TimeZone
  | utc
  | offset (secs : Int)
deriving DecidableEq, Repr

/-- A chrono NaiveDateTime, modelled as whole seconds since the epoch of
the proleptic Gregorian calendar (1970-01-01 00:00:00). -/
abbrev NaiveDateTime := Int

/-- A chrono DateTime: a naive instant plus the zone it is interpreted in. -/
structure DateTime where
  naive : NaiveDateTime
  zone : TimeZone
deriving DecidableEq, Repr

/-- DateTime::from_utc attaches a zone to a naive date-time. -/
def DateTime.from_utc (n : NaiveDateTime) (z : TimeZone) : DateTime :=
  { naive := n, zone := z }

/-- Modelled from the spec: the compression-algorithm enumeration
(crate::storage::CompressionAlgorithm) is not under src/; the spec
describes a small enumerated set serialized as a content-encoding label,
with unknown labels degrading to no compression on read. -/
inductive CompressionAlgorithm
  | zstd
deriving DecidableEq, Repr

/-- Modelled from the spec: the string form of a compression algorithm
(its content-encoding label). -/
def CompressionAlgorithm.toLabel : CompressionAlgorithm → String
  | .zstd => "zstd"

/-- Modelled from the spec: parsing a content-encoding label back into a
compression algorithm; labels outside the enumerated set yield none. -/
def compressionFromStr (s : String) : Option CompressionAlgorithm :=
  if s = "zstd" then some CompressionAlgorithm.zstd else none

/-- The Blob record moving through the system (super::Blob), with content
as a byte list. -/
structure Blob where
  path : String
  mime : String
  date_updated : DateTime
  content : List Nat
  compression : Option CompressionAlgorithm
deriving DecidableEq, Repr

/-! ## Timestamp parser (parse_timespec)

The source is
  raw = raw.trim_end_matches(" GMT");
  DateTime::from_utc(NaiveDateTime::parse_from_str(raw, "%a, %d %b %Y %H:%M:%S")?, Utc)
so we model Rust's trim_end_matches (which removes every trailing
occurrence of the pattern) and chrono's parse_from_str at this fixed
format: weekday name, a comma, day, month name, 4-digit year and
HH:MM:SS, with whitespace-tolerant separators, rejecting trailing input,
invalid calendar values and weekday names inconsistent with the date. -/

/-- Strip every trailing occurrence of " GMT" from a reversed character
list (so the pattern appears reversed at the head). -/
def stripGmtRev : List Char → List Char
  | 'T' :: 'M' :: 'G' :: ' ' :: rest => stripGmtRev rest
  | l => l

/-- Rust str::trim_end_matches(" GMT"): removes all trailing occurrences. -/
def trimEndGmt (s : String) : List Char :=
  (stripGmtRev s.data.reverse).reverse

/-- Case-insensitive removal of an expected name from the head of the
input, as chrono does for weekday and month names. -/
def dropNameCI : List Char → List Char → Option (List Char)
  | [], s => some s
  | _ :: _, [] => none
  | c :: p, d :: s => if c.toLower = d.toLower then dropNameCI p s else none

/-- Match one of a list of (abbreviated, full) names case-insensitively,
full form first, returning its index. -/
def matchNameAux (i : Nat) : List (String × String) → List Char → Option (Nat × List Char)
  | [], _ => none
  | (short, long) :: rest, s =>
    match dropNameCI long.data s with
    | some s1 => some (i, s1)
    | none =>
      match dropNameCI short.data s with
      | some s1 => some (i, s1)
      | none => matchNameAux (i + 1) rest s

/-- Weekday names accepted by the %a specifier, Sunday first. -/
def weekdayNames : List (String × String) :=
  [("Sun", "Sunday"), ("Mon", "Monday"), ("Tue", "Tuesday"),
   ("Wed", "Wednesday"), ("Thu", "Thursday"), ("Fri", "Friday"),
   ("Sat", "Saturday")]

/-- Month names accepted by the %b specifier, January first. -/
def monthNames : List (String × String) :=
  [("Jan", "January"), ("Feb", "February"), ("Mar", "March"),
   ("Apr", "April"), ("May", "May"), ("Jun", "June"),
   ("Jul", "July"), ("Aug", "August"), ("Sep", "September"),
   ("Oct", "October"), ("Nov", "November"), ("Dec", "December")]

/-- Take up to n leading decimal digits. -/
def takeDigits : Nat → List Char → List Char × List Char
  | 0, s => ([], s)
  | _ + 1, [] => ([], [])
  | n + 1, c :: s =>
    if c.isDigit then
      let (ds, r) := takeDigits n s
      (c :: ds, r)
    else ([], c :: s)

/-- Value of a digit string. -/
def digitsToNat : List Char → Nat
  | [] => 0
  | c :: s => (c.toNat - '0'.toNat) * 10 ^ s.length + digitsToNat s

/-- Parse a 1-to-w digit number, as chrono numeric specifiers do. -/
def parseNum (w : Nat) (s : List Char) : Option (Nat × List Char) :=
  match takeDigits w s with
  | ([], _) => none
  | (ds, r) => some (digitsToNat ds, r)

/-- Consume leading whitespace (chrono Space items match any amount,
including none). -/
def skipSpaces (s : List Char) : List Char :=
  s.dropWhile Char.isWhitespace

/-- Consume one expected literal character. -/
def expectChar (c : Char) : List Char → Option (List Char)
  | [] => none
  | d :: s => if d = c then some s else none

/-- Gregorian leap year. -/
def isLeap (y : Nat) : Bool :=
  y % 4 = 0 && (y % 100 ≠ 0 || y % 400 = 0)

/-- Days in a month (month 1..12). -/
def daysInMonth (y m : Nat) : Nat :=
  if m = 2 then (if isLeap y then 29 else 28)
  else if m = 4 || m = 6 || m = 9 || m = 11 then 30
  else 31

/-- Days since 1970-01-01 of a civil date (Gregorian calendar). -/
def daysFromCivil (y : Int) (m d : Nat) : Int :=
  let y1 : Int := if m ≤ 2 then y - 1 else y
  let era : Int := (if 0 ≤ y1 then y1 else y1 - 399) / 400
  let yoe : Int := y1 - era * 400
  let mp : Nat := (m + 9) % 12
  let doy : Int := ((153 * mp + 2) / 5 + d - 1 : Nat)
  let doe : Int := yoe * 365 + yoe / 4 - yoe / 100 + doy
  era * 146097 + doe - 719468

/-- Chrono NaiveDateTime::parse_from_str at the fixed format
"%a, %d %b %Y %H:%M:%S": returns seconds since the epoch, or none on any
layout, calendar or weekday-consistency violation. -/
def naive_parse_from_str (s0 : List Char) : Option NaiveDateTime := do
  let (wd, s) ← matchNameAux 0 weekdayNames s0
  let s ← expectChar ',' s
  let s := skipSpaces s
  let (d, s) ← parseNum 2 s
  let s := skipSpaces s
  let (mo, s) ← matchNameAux 0 monthNames s
  let s := skipSpaces s
  let (y, s) ← parseNum 4 s
  let s := skipSpaces s
  let (h, s) ← parseNum 2 s
  let s ← expectChar ':' s
  let (mi, s) ← parseNum 2 s
  let s ← expectChar ':' s
  let (sec, s) ← parseNum 2 s
  guard s.isEmpty
  let m := mo + 1
  guard (1 ≤ d ∧ d ≤ daysInMonth y m)
  guard (h < 24 ∧ mi < 60 ∧ sec < 60)
  let days := daysFromCivil (y : Int) m d
  guard ((days + 4).emod 7 = (wd : Int))
  return days * 86400 + (h * 3600 + mi * 60 + sec : Nat)

/-- Errors of the storage layer (spec section 7 taxonomy, as far as the
read path produces them). -/
inductive StorageError
  | transport
  | noBody
  | sizeLimitExceeded
  | malformedTimestamp
deriving DecidableEq, Repr

/-- parse_timespec from the source: strip trailing " GMT" occurrences,
parse the remainder as a naive date-time, attach the UTC zone; a parse
failure is the MalformedTimestamp error. -/
def parse_timespec (raw : String) : Except StorageError DateTime :=
  match naive_parse_from_str (trimEndGmt raw) with
  | none => .error .malformedTimestamp
  | some n => .ok (DateTime.from_utc n TimeZone.utc)

/-! ## Bounded buffer and the read path (S3Backend::get) -/

/-- Modelled from the spec: crate::utils::sized_buffer::SizedBuffer is not
under src/; the spec (section 4.1) describes an append-only byte buffer
with a hard capacity ceiling whose append either extends the buffer when
current length plus chunk length stays within max_size, or fails with
SizeLimitExceeded with no partial write; reserve is a capacity hint that
never relaxes the ceiling. -/
structure SizedBuffer where
  data : List Nat
  max_size : Nat
deriving DecidableEq, Repr

/-- Modelled from the spec: an empty buffer with the given ceiling. -/
def SizedBuffer.new (max : Nat) : SizedBuffer := { data := [], max_size := max }

/-- Modelled from the spec: reserve is only a preallocation hint with no
observable effect on contents or ceiling. -/
def SizedBuffer.reserve (b : SizedBuffer) (hint : Nat) : SizedBuffer :=
  let _ := hint
  b

/-- Modelled from the spec: append a chunk, all or nothing, failing with
SizeLimitExceeded when the ceiling would be crossed. -/
def SizedBuffer.write_all (b : SizedBuffer) (chunk : List Nat) : Except StorageError SizedBuffer :=
  if b.data.length + chunk.length ≤ b.max_size then
    .ok { data := b.data ++ chunk, max_size := b.max_size }
  else .error .sizeLimitExceeded

/-- Modelled from the spec: the terminal conversion into the owned byte
sequence. -/
def SizedBuffer.into_inner (b : SizedBuffer) : List Nat := b.data

/-- The metadata and body of a GetObjectRequest response
(rusoto GetObjectOutput, the fields the source reads). The body is a
stream of chunk results: each element is either a transport error or a
block of bytes. -/
structure GetObjectOutput where
  content_length : Option Int
  body : Option (List (Except Unit (List Nat)))
  last_modified : Option String
  content_type : Option String
  content_encoding : Option String
deriving Repr

/-- Outcome of a call to get: a Blob, a returned typed error, or an
abnormal termination of the process (a Rust panic, from unwrap). -/
inductive GetOutcome
  | ok (b : Blob)
  | err (e : StorageError)
  | panics
deriving DecidableEq, Repr

/-- Stream the body chunks into the buffer as the while-let loop in get
does: a chunk-level transport error aborts with an error, and each byte
block goes through write_all. -/
def writeChunks (buf : SizedBuffer) : List (Except Unit (List Nat)) → Except StorageError SizedBuffer
  | [] => .ok buf
  | .error _ :: _ => .error .transport
  | .ok c :: rest =>
    match buf.write_all c with
    | .error e => .error e
    | .ok buf1 => writeChunks buf1 rest

/-- The i64 content_length is turned into a usize preallocation hint via
try_into().ok(), defaulting to 0: negative declared lengths are dropped. -/
def lengthHint (cl : Option Int) : Nat :=
  match cl with
  | none => 0
  | some l => if 0 ≤ l then l.toNat else 0

/-- S3Backend::get. The request outcome res stands for the transport
result of client.get_object (error propagated by the question-mark
operator as a transport failure). On success the source checks the body,
streams it into the SizedBuffer, then unwraps last_modified (a panic when
absent), parses it, derives compression best-effort, and unwraps
content_type (a panic when absent) while assembling the Blob. -/
def S3Backend.get (path : String) (max_size : Nat)
    (res : Except Unit GetObjectOutput) : GetOutcome :=
  match res with
  | .error _ => .err .transport
  | .ok out =>
    let content := (SizedBuffer.new max_size).reserve (lengthHint out.content_length)
    match out.body with
    | none => .err .noBody
    | some body =>
      match writeChunks content body with
      | .error e => .err e
      | .ok content =>
        match out.last_modified with
        | none => .panics
        | some lm =>
          match parse_timespec lm with
          | .error _ => .err .malformedTimestamp
          | .ok date_updated =>
            let compression := out.content_encoding.bind compressionFromStr
            match out.content_type with
            | none => .panics
            | some mime =>
              .ok { path := path, mime := mime, date_updated := date_updated,
                    content := content.into_inner, compression := compression }

/-! ## Batched retry write path (S3StorageTransaction::store_batch)

The transport outcome of each put_object request is a parameter: an
oracle telling which blob succeeds in which attempt round. One round
drains the batch, issues one put_object per blob, increments the uploaded
counter once per success, and pushes each failed blob back; after at most
3 rounds with a non-empty batch the source panics. -/

/-- How store_batch terminates: returning Ok, or terminating the whole
process (the panic after 3 failed rounds). -/
inductive BatchOutcome
  | ok
  | panics
deriving DecidableEq, Repr

/-- Observable result of store_batch: its termination mode, the total
increments of the uploaded-files counter, the total number of put_object
requests issued, the number of attempt rounds run, the blobs successfully
written (in the round order they succeeded), and the blobs still failed
when it stopped. -/
structure BatchResult where
  outcome : BatchOutcome
  uploaded : Nat
  writes : Nat
  rounds : Nat
  stored : List Blob
  remaining : List Blob
deriving DecidableEq, Repr

/-- One-round-at-a-time retry loop of store_batch: round is the index of
the current attempt, fuel the number of attempts left out of 3. Each
iteration issues batch.length writes, counts the successes once each,
keeps the failures, and returns Ok exactly when no failures remain. -/
def storeBatchGo (o : Nat → Blob → Bool) :
    Nat → Nat → List Blob → Nat → Nat → List Blob → BatchResult
  | round, 0, batch, uploaded, writes, stored =>
    { outcome := .panics, uploaded := uploaded, writes := writes,
      rounds := round, stored := stored, remaining := batch }
  | round, fuel + 1, batch, uploaded, writes, stored =>
    let succ := batch.filter (fun b => o round b)
    let fail := batch.filter (fun b => !o round b)
    let uploaded1 := uploaded + succ.length
    let writes1 := writes + batch.length
    let stored1 := stored ++ succ
    if fail.isEmpty then
      { outcome := .ok, uploaded := uploaded1, writes := writes1,
        rounds := round + 1, stored := stored1, remaining := [] }
    else
      storeBatchGo o (round + 1) fuel fail uploaded1 writes1 stored1

/-- S3StorageTransaction::store_batch, parameterised by the per-round
write outcomes o. -/
def store_batch (o : Nat → Blob → Bool) (batch : List Blob) : BatchResult :=
  storeBatchGo o 0 3 batch 0 0 []

/-! ## Client factory (s3_client) -/

/-- Credential material produced by DefaultCredentialsProvider. -/
structure Creds where
  material : String
deriving DecidableEq, Repr

/-- A rusoto Region as the source constructs it: the default, or a custom
name and endpoint. -/
inductive Region
  | usWest1
  | custom (name : String) (endpoint : String)
deriving DecidableEq, Repr

/-- The constructed client handle: the credentials and region passed to
S3Client::new_with. -/
structure S3ClientHandle where
  creds : Creds
  region : Region
deriving DecidableEq, Repr

/-- The environment variables the factory reads. -/
structure Env where
  aws_access_key_id : Option String
  force_s3 : Option String
  s3_endpoint : Option String
  s3_region : Option String
deriving Repr

/-- s3_client from the source: when both AWS_ACCESS_KEY_ID and FORCE_S3
are unset, no client; when DefaultCredentialsProvider construction fails,
a warning and no client; otherwise a client over the custom region when
S3_ENDPOINT is set (with S3_REGION defaulting to us-west-1) and the
default region otherwise. -/
def s3_client (env : Env) (credsResult : Except String Creds) : Option S3ClientHandle :=
  if env.aws_access_key_id.isNone && env.force_s3.isNone then
    none
  else
    match credsResult with
    | .error _ => none
    | .ok creds =>
      some { creds := creds,
             region :=
               match env.s3_endpoint with
               | some e => Region.custom (env.s3_region.getD "us-west-1") e
               | none => Region.usWest1 }

/-- Total byte length of a chunk list. -/
def totalLen : List (List Nat) → Nat
  | [] => 0
  | c :: r => c.length + totalLen r

/-- A fully successful body stream made of the given byte blocks. -/
def okBody (cs : List (List Nat)) : List (Except Unit (List Nat)) :=
  cs.map Except.ok

/-- Concatenation of the chunks, the full untruncated content. -/
def flattenChunks : List (List Nat) → List Nat
  | [] => []
  | c :: r => c ++ flattenChunks r

/-! ## Concrete fixtures used by witnesses -/

/-- A successful response carrying two body chunks totalling three bytes. -/
def respC : GetObjectOutput :=
  { content_length := none, body := some (okBody [[1, 2], [3]]),
    last_modified := some "Thu, 1 Jan 1970 00:00:00 GMT",
    content_type := some "text/plain", content_encoding := none }

/-- The blob get returns for respC at max_size 3. -/
def blobW : Blob :=
  { path := "p", mime := "text/plain", date_updated := { naive := 0, zone := .utc },
    content := [1, 2, 3], compression := none }

/-- A blob used in batch-scenario witnesses. -/
def bW : Blob :=
  { path := "a", mime := "text/plain", date_updated := { naive := 0, zone := .utc },
    content := [7], compression := none }

/-- An environment with no credential material and no override. -/
def envEmpty : Env :=
  { aws_access_key_id := none, force_s3 := none, s3_endpoint := none, s3_region := none }

/-! ## Helper lemmas -/

theorem storeBatchGo_zero (o : Nat → Blob → Bool) (round : Nat) (batch : List Blob)
    (uploaded writes : Nat) (stored : List Blob) :
    storeBatchGo o round 0 batch uploaded writes stored =
      { outcome := .panics, uploaded := uploaded, writes := writes,
        rounds := round, stored := stored, remaining := batch } := rfl

theorem storeBatchGo_succ (o : Nat → Blob → Bool) (round fuel : Nat) (batch : List Blob)
    (uploaded writes : Nat) (stored : List Blob) :
    storeBatchGo o round (fuel + 1) batch uploaded writes stored =
      if (batch.filter (fun b => !o round b)).isEmpty then
        { outcome := .ok,
          uploaded := uploaded + (batch.filter (fun b => o round b)).length,
          writes := writes + batch.length, rounds := round + 1,
          stored := stored ++ batch.filter (fun b => o round b), remaining := [] }
      else
        storeBatchGo o (round + 1) fuel (batch.filter (fun b => !o round b))
          (uploaded + (batch.filter (fun b => o round b)).length)
          (writes + batch.length) (stored ++ batch.filter (fun b => o round b)) := rfl

theorem store_batch_eq (o : Nat → Blob → Bool) (batch : List Blob) :
    store_batch o batch =
      if (batch.filter (fun b => !o 0 b)).isEmpty then
        { outcome := .ok, uploaded := (batch.filter (fun b => o 0 b)).length,
          writes := batch.length, rounds := 1,
          stored := batch.filter (fun b => o 0 b), remaining := [] }
      else if ((batch.filter (fun b => !o 0 b)).filter (fun b => !o 1 b)).isEmpty then
        { outcome := .ok,
          uploaded := (batch.filter (fun b => o 0 b)).length
            + ((batch.filter (fun b => !o 0 b)).filter (fun b => o 1 b)).length,
          writes := batch.length + (batch.filter (fun b => !o 0 b)).length, rounds := 2,
          stored := batch.filter (fun b => o 0 b)
            ++ (batch.filter (fun b => !o 0 b)).filter (fun b => o 1 b),
          remaining := [] }
      else if (((batch.filter (fun b => !o 0 b)).filter (fun b => !o 1 b)).filter
          (fun b => !o 2 b)).isEmpty then
        { outcome := .ok,
          uploaded := (batch.filter (fun b => o 0 b)).length
            + ((batch.filter (fun b => !o 0 b)).filter (fun b => o 1 b)).length
            + (((batch.filter (fun b => !o 0 b)).filter (fun b => !o 1 b)).filter
                (fun b => o 2 b)).length,
          writes := batch.length + (batch.filter (fun b => !o 0 b)).length
            + ((batch.filter (fun b => !o 0 b)).filter (fun b => !o 1 b)).length,
          rounds := 3,
          stored := batch.filter (fun b => o 0 b)
            ++ (batch.filter (fun b => !o 0 b)).filter (fun b => o 1 b)
            ++ ((batch.filter (fun b => !o 0 b)).filter (fun b => !o 1 b)).filter
                (fun b => o 2 b),
          remaining := [] }
      else
        { outcome := .panics,
          uploaded := (batch.filter (fun b => o 0 b)).length
            + ((batch.filter (fun b => !o 0 b)).filter (fun b => o 1 b)).length
            + (((batch.filter (fun b => !o 0 b)).filter (fun b => !o 1 b)).filter
                (fun b => o 2 b)).length,
          writes := batch.length + (batch.filter (fun b => !o 0 b)).length
            + ((batch.filter (fun b => !o 0 b)).filter (fun b => !o 1 b)).length,
          rounds := 3,
          stored := batch.filter (fun b => o 0 b)
            ++ (batch.filter (fun b => !o 0 b)).filter (fun b => o 1 b)
            ++ ((batch.filter (fun b => !o 0 b)).filter (fun b => !o 1 b)).filter
                (fun b => o 2 b),
          remaining := ((batch.filter (fun b => !o 0 b)).filter (fun b => !o 1 b)).filter
            (fun b => !o 2 b) } := by
  show storeBatchGo o 0 3 batch 0 0 [] = _
  rw [storeBatchGo_succ]
  by_cases h0 : (batch.filter (fun b => !o 0 b)).isEmpty
  · rw [if_pos h0, if_pos h0]
    simp only [Nat.zero_add, List.nil_append]
  · rw [if_neg h0, if_neg h0, storeBatchGo_succ]
    by_cases h1 : ((batch.filter (fun b => !o 0 b)).filter (fun b => !o 1 b)).isEmpty
    · rw [if_pos h1, if_pos h1]
      simp only [Nat.zero_add, List.nil_append]
    · rw [if_neg h1, if_neg h1, storeBatchGo_succ]
      by_cases h2 : (((batch.filter (fun b => !o 0 b)).filter (fun b => !o 1 b)).filter
          (fun b => !o 2 b)).isEmpty
      · rw [if_pos h2, if_pos h2]
        simp only [Nat.zero_add, List.nil_append, Nat.add_assoc, List.append_assoc]
      · rw [if_neg h2, if_neg h2, storeBatchGo_zero]
        simp only [Nat.zero_add, List.nil_append, Nat.add_assoc, List.append_assoc]

theorem length_filter_partition (p : Blob → Bool) (l : List Blob) :
    (l.filter p).length + (l.filter (fun b => !p b)).length = l.length := by
  induction l with
  | nil => rfl
  | cons a l ih =>
    by_cases h : p a <;> simp [List.filter_cons, h] <;> omega

theorem writeChunks_ok (cs : List (List Nat)) (buf : SizedBuffer)
    (h : buf.data.length + totalLen cs ≤ buf.max_size) :
    writeChunks buf (okBody cs) =
      .ok { data := buf.data ++ flattenChunks cs, max_size := buf.max_size } := by
  induction cs generalizing buf with
  | nil =>
    simp [okBody, writeChunks, flattenChunks]
  | cons c rest ih =>
    have hc : buf.data.length + c.length ≤ buf.max_size := by
      simp [totalLen] at h; omega
    have hrest : ({ data := buf.data ++ c, max_size := buf.max_size } :
        SizedBuffer).data.length + totalLen rest ≤
        ({ data := buf.data ++ c, max_size := buf.max_size } : SizedBuffer).max_size := by
      simp only [List.length_append]
      simp [totalLen] at h ⊢
      omega
    have h2 := ih { data := buf.data ++ c, max_size := buf.max_size } hrest
    simp only [okBody, List.map] at h2 ⊢
    simp only [writeChunks, SizedBuffer.write_all, if_pos hc]
    rw [h2]
    simp [flattenChunks, List.append_assoc]

theorem writeChunks_overflow (cs : List (List Nat)) (buf : SizedBuffer)
    (hinv : buf.data.length ≤ buf.max_size)
    (h : buf.max_size < buf.data.length + totalLen cs) :
    writeChunks buf (okBody cs) = .error .sizeLimitExceeded := by
  induction cs generalizing buf with
  | nil =>
    simp [totalLen] at h
    omega
  | cons c rest ih =>
    by_cases hc : buf.data.length + c.length ≤ buf.max_size
    · simp only [okBody, List.map, writeChunks, SizedBuffer.write_all, if_pos hc]
      apply ih
      · simp only [List.length_append]; omega
      · simp only [List.length_append]
        simp [totalLen] at h ⊢
        omega
    · simp only [okBody, List.map, writeChunks, SizedBuffer.write_all, if_neg hc]

theorem writeChunks_preserves_bound (body : List (Except Unit (List Nat)))
    (buf buf1 : SizedBuffer) (hinv : buf.data.length ≤ buf.max_size)
    (h : writeChunks buf body = .ok buf1) :
    buf1.data.length ≤ buf1.max_size := by
  induction body generalizing buf with
  | nil =>
    simp [writeChunks] at h
    rw [← h]
    exact hinv
  | cons c rest ih =>
    match c with
    | .error e => simp [writeChunks] at h
    | .ok bytes =>
      simp only [writeChunks, SizedBuffer.write_all] at h
      by_cases hc : buf.data.length + bytes.length ≤ buf.max_size
      · rw [if_pos hc] at h
        simp only [] at h
        exact ih _ (by simp only [List.length_append]; omega) h
      · rw [if_neg hc] at h
        exact absurd h (by simp)

theorem writeChunks_max_size (body : List (Except Unit (List Nat)))
    (buf buf1 : SizedBuffer) (h : writeChunks buf body = .ok buf1) :
    buf1.max_size = buf.max_size := by
  induction body generalizing buf with
  | nil =>
    simp [writeChunks] at h
    rw [← h]
  | cons c rest ih =>
    match c with
    | .error e => simp [writeChunks] at h
    | .ok bytes =>
      simp only [writeChunks, SizedBuffer.write_all] at h
      by_cases hc : buf.data.length + bytes.length ≤ buf.max_size
      · rw [if_pos hc] at h
        simp only [] at h
        exact ih { data := buf.data ++ bytes, max_size := buf.max_size } h
      · rw [if_neg hc] at h
        exact absurd h (by simp)

theorem get_ok_eq (path : String) (ms : Nat) (out : GetObjectOutput)
    (cs : List (List Nat)) (lm : String) (t : DateTime) (mime : String)
    (hbody : out.body = some (okBody cs)) (hlen : totalLen cs ≤ ms)
    (hlm : out.last_modified = some lm) (ht : parse_timespec lm = .ok t)
    (hct : out.content_type = some mime) :
    S3Backend.get path ms (.ok out) =
      .ok { path := path, mime := mime, date_updated := t,
            content := flattenChunks cs,
            compression := out.content_encoding.bind compressionFromStr } := by
  have hw : writeChunks ((SizedBuffer.new ms).reserve (lengthHint out.content_length))
      (okBody cs) = .ok { data := ([] : List Nat) ++ flattenChunks cs, max_size := ms } :=
    writeChunks_ok cs _ (by simp [SizedBuffer.new, SizedBuffer.reserve]; omega)
  simp only [S3Backend.get, hbody, hlm, hct, ht, hw, SizedBuffer.into_inner,
    List.nil_append]

theorem get_overflow (path : String) (ms : Nat) (out : GetObjectOutput)
    (cs : List (List Nat))
    (hbody : out.body = some (okBody cs)) (hlen : ms < totalLen cs) :
    S3Backend.get path ms (.ok out) = .err .sizeLimitExceeded := by
  have hw : writeChunks ((SizedBuffer.new ms).reserve (lengthHint out.content_length))
      (okBody cs) = .error .sizeLimitExceeded :=
    writeChunks_overflow cs _ (by simp [SizedBuffer.new, SizedBuffer.reserve])
      (by simp [SizedBuffer.new, SizedBuffer.reserve]; omega)
  simp only [S3Backend.get, hbody, hw]

theorem get_ok_inv (path : String) (ms : Nat) (res : Except Unit GetObjectOutput)
    (b : Blob) (h : S3Backend.get path ms res = .ok b) :
    b.path = path ∧ b.content.length ≤ ms := by
  match res with
  | .error e => simp [S3Backend.get] at h
  | .ok out =>
    simp only [S3Backend.get] at h
    match hbody : out.body with
    | none => rw [hbody] at h; simp at h
    | some body =>
      rw [hbody] at h
      simp only at h
      match hw : writeChunks ((SizedBuffer.new ms).reserve (lengthHint out.content_length))
          body with
      | .error e => rw [hw] at h; simp at h
      | .ok content =>
        rw [hw] at h
        simp only at h
        match hlm : out.last_modified with
        | none => rw [hlm] at h; simp at h
        | some lm =>
          rw [hlm] at h
          simp only at h
          match ht : parse_timespec lm with
          | .error e => rw [ht] at h; simp at h
          | .ok t =>
            rw [ht] at h
            simp only at h
            match hct : out.content_type with
            | none => rw [hct] at h; simp at h
            | some mime =>
              rw [hct] at h
              simp only [GetOutcome.ok.injEq] at h
              have hbound : content.data.length ≤ content.max_size :=
                writeChunks_preserves_bound body _ content
                  (by simp [SizedBuffer.new, SizedBuffer.reserve]) hw
              have hms : content.max_size = ms := by
                have := writeChunks_max_size body _ content hw
                simpa [SizedBuffer.new, SizedBuffer.reserve] using this
              subst h
              exact ⟨rfl, by simpa [SizedBuffer.into_inner, hms] using hbound⟩

/-! ## Claim theorems -/

/-- C1 (counterexample): on an otherwise-successful response whose
last-modified timestamp is absent, get does not return a TransportError to
the caller; it terminates abnormally (the source unwraps the missing
field, a panic). -/
theorem c1_counterexample :
    S3Backend.get "p" 10 (.ok { respC with last_modified := none }) = GetOutcome.panics
    ∧ S3Backend.get "p" 10 (.ok { respC with last_modified := none })
        ≠ GetOutcome.err StorageError.transport := by
  exact ⟨rfl, by decide⟩

/-- C1 (amended): whenever the remote store returns a successful response
whose body streams within the size bound but whose last-modified timestamp
is absent, or whose content type is absent, get terminates abnormally (a
panic from unwrap) instead of returning a typed error to the caller. -/
theorem c1_missing_metadata_panics :
    (∀ (path : String) (ms : Nat) (out : GetObjectOutput) (cs : List (List Nat)),
      out.body = some (okBody cs) → totalLen cs ≤ ms →
      out.last_modified = none →
      S3Backend.get path ms (.ok out) = GetOutcome.panics)
    ∧ (∀ (path : String) (ms : Nat) (out : GetObjectOutput) (cs : List (List Nat))
        (lm : String) (t : DateTime),
      out.body = some (okBody cs) → totalLen cs ≤ ms →
      out.last_modified = some lm → parse_timespec lm = .ok t →
      out.content_type = none →
      S3Backend.get path ms (.ok out) = GetOutcome.panics) := by
  constructor
  · intro path ms out cs hbody hlen hlm
    have hw : writeChunks ((SizedBuffer.new ms).reserve (lengthHint out.content_length))
        (okBody cs) = .ok { data := ([] : List Nat) ++ flattenChunks cs, max_size := ms } :=
      writeChunks_ok cs _ (by simp [SizedBuffer.new, SizedBuffer.reserve]; omega)
    simp only [S3Backend.get, hbody, hlm, hw]
  · intro path ms out cs lm t hbody hlen hlm ht hct
    have hw : writeChunks ((SizedBuffer.new ms).reserve (lengthHint out.content_length))
        (okBody cs) = .ok { data := ([] : List Nat) ++ flattenChunks cs, max_size := ms } :=
      writeChunks_ok cs _ (by simp [SizedBuffer.new, SizedBuffer.reserve]; omega)
    simp only [S3Backend.get, hbody, hlm, hw, ht, hct]

/-- C1 (witness): the amended theorem applied at a concrete missing
last-modified response. -/
theorem c1_missing_metadata_panics_witness :
    S3Backend.get "q" 10 (.ok { respC with last_modified := none }) = GetOutcome.panics :=
  c1_missing_metadata_panics.1 "q" 10 { respC with last_modified := none }
    [[1, 2], [3]] rfl (by decide) rfl

/-- C5: the timestamp parser is pure and maps the two documented inputs to
the epoch instant and to 2018-04-16T04:33:50Z (1523853230 seconds after
the epoch), rejects the literal string foo with MalformedTimestamp, and
every instant it produces carries the UTC zone. -/
theorem c5_parse_timespec_spec :
    parse_timespec "Thu, 1 Jan 1970 00:00:00 GMT"
      = .ok { naive := 0, zone := TimeZone.utc }
    ∧ parse_timespec "Mon, 16 Apr 2018 04:33:50 GMT"
      = .ok { naive := 1523853230, zone := TimeZone.utc }
    ∧ parse_timespec "foo" = .error StorageError.malformedTimestamp
    ∧ (∀ (s : String) (t : DateTime), parse_timespec s = .ok t →
        t.zone = TimeZone.utc) := by
  refine ⟨rfl, rfl, rfl, ?_⟩
  intro s t h
  unfold parse_timespec at h
  match hm : naive_parse_from_str (trimEndGmt s) with
  | none => rw [hm] at h; exact absurd h (by simp)
  | some n =>
    rw [hm] at h
    simp only [Except.ok.injEq] at h
    rw [← h]
    rfl

/-- C5 (witness): the UTC-only conjunct applied at the epoch input. -/
theorem c5_parse_timespec_spec_witness :
    ({ naive := 0, zone := TimeZone.utc } : DateTime).zone = TimeZone.utc :=
  c5_parse_timespec_spec.2.2.2 "Thu, 1 Jan 1970 00:00:00 GMT"
    { naive := 0, zone := TimeZone.utc } rfl

/-- C9: trim_end_matches removes every trailing occurrence of the pattern,
so an input ending in two trailing GMT literals parses successfully and
yields the same instant as the single-suffix input. -/
theorem c9_double_gmt_suffix :
    parse_timespec "Thu, 1 Jan 1970 00:00:00 GMT GMT"
      = .ok { naive := 0, zone := TimeZone.utc }
    ∧ parse_timespec "Thu, 1 Jan 1970 00:00:00 GMT GMT"
      = parse_timespec "Thu, 1 Jan 1970 00:00:00 GMT" := by
  exact ⟨rfl, rfl⟩

/-- C10: every successful get returns a Blob whose path field is the
requested path argument, whatever the response metadata holds. -/
theorem c10_get_returns_requested_path (path : String) (ms : Nat)
    (res : Except Unit GetObjectOutput) (b : Blob)
    (h : S3Backend.get path ms res = .ok b) : b.path = path :=
  (get_ok_inv path ms res b h).1

/-- C10 (witness): applied at a concrete successful response. -/
theorem c10_get_returns_requested_path_witness : blobW.path = "p" :=
  c10_get_returns_requested_path "p" 3 (.ok respC) blobW (by decide)

theorem length_filter_partition2 (o : Nat → Blob → Bool) (r : Nat) (l : List Blob) :
    (l.filter (fun b => o r b)).length + (l.filter (fun b => !o r b)).length = l.length := by
  induction l with
  | nil => rfl
  | cons a l ih =>
    by_cases h : o r a <;> simp [List.filter_cons, h] <;> omega

/-- C2: store_batch succeeds exactly when every blob of the batch gets a
successful write within the 3 attempt rounds; the upload counter counts
each blob at most once (successes plus the retained failures account for
the whole batch); at most 3 rounds run; and in the all-fail-then-all-
succeed scenario on a non-empty batch it completes in exactly 2 rounds,
with one write per blob per round and each success counted once. -/
theorem c2_store_batch_retry :
    (∀ (o : Nat → Blob → Bool) (batch : List Blob),
      ((store_batch o batch).outcome = BatchOutcome.ok ↔
        ∀ b ∈ batch, ∃ r, r < 3 ∧ o r b = true))
    ∧ (∀ (o : Nat → Blob → Bool) (batch : List Blob),
      (store_batch o batch).uploaded + (store_batch o batch).remaining.length
        = batch.length)
    ∧ (∀ (o : Nat → Blob → Bool) (batch : List Blob),
      (store_batch o batch).rounds ≤ 3)
    ∧ (∀ (o : Nat → Blob → Bool) (batch : List Blob),
      (∀ b ∈ batch, o 0 b = false ∧ o 1 b = true) → batch ≠ [] →
      store_batch o batch =
        { outcome := .ok, uploaded := batch.length,
          writes := batch.length + batch.length, rounds := 2,
          stored := batch, remaining := [] }) := by
  refine ⟨?_, ?_, ?_, ?_⟩
  · intro o batch
    rw [store_batch_eq]
    by_cases h0 : (batch.filter (fun b => !o 0 b)).isEmpty
    · rw [if_pos h0]
      constructor
      · intro _ b hb
        have := List.filter_eq_nil.mp (List.isEmpty_iff.mp h0) b hb
        exact ⟨0, by omega, by simpa using this⟩
      · intro _; rfl
    · rw [if_neg h0]
      by_cases h1 : ((batch.filter (fun b => !o 0 b)).filter (fun b => !o 1 b)).isEmpty
      · rw [if_pos h1]
        constructor
        · intro _ b hb
          by_cases hb0 : o 0 b
          · exact ⟨0, by omega, hb0⟩
          · have hbf : b ∈ batch.filter (fun b => !o 0 b) :=
              List.mem_filter.mpr ⟨hb, by simp [hb0]⟩
            have := List.filter_eq_nil.mp (List.isEmpty_iff.mp h1) b hbf
            exact ⟨1, by omega, by simpa using this⟩
        · intro _; rfl
      · rw [if_neg h1]
        by_cases h2 : (((batch.filter (fun b => !o 0 b)).filter (fun b => !o 1 b)).filter
            (fun b => !o 2 b)).isEmpty
        · rw [if_pos h2]
          constructor
          · intro _ b hb
            by_cases hb0 : o 0 b
            · exact ⟨0, by omega, hb0⟩
            by_cases hb1 : o 1 b
            · exact ⟨1, by omega, hb1⟩
            have hbf : b ∈ (batch.filter (fun b => !o 0 b)).filter (fun b => !o 1 b) :=
              List.mem_filter.mpr ⟨List.mem_filter.mpr ⟨hb, by simp [hb0]⟩, by simp [hb1]⟩
            have := List.filter_eq_nil.mp (List.isEmpty_iff.mp h2) b hbf
            exact ⟨2, by omega, by simpa using this⟩
          · intro _; rfl
        · rw [if_neg h2]
          constructor
          · intro h
            exact absurd h (by simp)
          intro hall
          exfalso
          have hne : (((batch.filter (fun b => !o 0 b)).filter (fun b => !o 1 b)).filter
              (fun b => !o 2 b)) ≠ [] := fun he => h2 (by rw [he]; rfl)
          obtain ⟨b, hbmem⟩ := List.exists_mem_of_ne_nil _ hne
          have hb2 := List.mem_filter.mp hbmem
          have hb1 := List.mem_filter.mp hb2.1
          have hb0 := List.mem_filter.mp hb1.1
          obtain ⟨r, hr, hor⟩ := hall b hb0.1
          interval_cases r
          · simp [hor] at hb0
          · simp [hor] at hb1
          · simp [hor] at hb2
  · intro o batch
    have hp0 := length_filter_partition2 o 0 batch
    have hp1 := length_filter_partition2 o 1 (batch.filter (fun b => !o 0 b))
    have hp2 := length_filter_partition2 o 2
      ((batch.filter (fun b => !o 0 b)).filter (fun b => !o 1 b))
    rw [store_batch_eq]
    by_cases h0 : (batch.filter (fun b => !o 0 b)).isEmpty
    · rw [if_pos h0]
      have l0 : (batch.filter (fun b => !o 0 b)).length = 0 := by
        rw [List.isEmpty_iff.mp h0]
        rfl
      simp only [List.length_nil]
      omega
    · rw [if_neg h0]
      by_cases h1 : ((batch.filter (fun b => !o 0 b)).filter (fun b => !o 1 b)).isEmpty
      · rw [if_pos h1]
        have l1 : ((batch.filter (fun b => !o 0 b)).filter (fun b => !o 1 b)).length = 0 := by
          rw [List.isEmpty_iff.mp h1]
          rfl
        simp only [List.length_nil]
        omega
      · rw [if_neg h1]
        by_cases h2 : (((batch.filter (fun b => !o 0 b)).filter (fun b => !o 1 b)).filter
            (fun b => !o 2 b)).isEmpty
        · rw [if_pos h2]
          have l2 : (((batch.filter (fun b => !o 0 b)).filter (fun b => !o 1 b)).filter
              (fun b => !o 2 b)).length = 0 := by
            rw [List.isEmpty_iff.mp h2]
            rfl
          simp only [List.length_nil]
          omega
        · rw [if_neg h2]
          simp only [List.length_nil]
          omega
  · intro o batch
    rw [store_batch_eq]
    split_ifs <;> simp
  · intro o batch hscen hne
    have hf0 : batch.filter (fun b => !o 0 b) = batch :=
      List.filter_eq_self.mpr (fun b hb => by simp [(hscen b hb).1])
    have hs0 : batch.filter (fun b => o 0 b) = [] :=
      List.filter_eq_nil.mpr (fun b hb => by simp [(hscen b hb).1])
    have hf1 : batch.filter (fun b => !o 1 b) = [] :=
      List.filter_eq_nil.mpr (fun b hb => by simp [(hscen b hb).2])
    have hs1 : batch.filter (fun b => o 1 b) = batch :=
      List.filter_eq_self.mpr (fun b hb => (hscen b hb).2)
    have hbe : batch.isEmpty = false := by
      cases batch
      · exact absurd rfl hne
      · rfl
    rw [store_batch_eq, hf0, hf1]
    simp [hbe, hs0, hs1]

/-- C2 (witness): a singleton batch failing its first round and succeeding
its second completes in exactly 2 rounds with one counted success. -/
theorem c2_store_batch_retry_witness :
    store_batch (fun r _ => decide (r = 1)) [bW] =
      { outcome := .ok, uploaded := [bW].length, writes := [bW].length + [bW].length,
        rounds := 2, stored := [bW], remaining := [] } :=
  c2_store_batch_retry.2.2.2 (fun r _ => decide (r = 1)) [bW] (by decide) (by decide)

/-- C3: when some blob of the batch fails all 3 attempt rounds,
store_batch does not return Ok: it ends in the process-terminating panic;
every blob it stored succeeded in one of the earlier rounds and is counted
exactly once, the persistently failing blob is still in the retained
batch, and each round only re-issued writes for the blobs still failing
(successes are never re-uploaded). -/
theorem c3_retry_exhaustion (o : Nat → Blob → Bool) (batch : List Blob) (b : Blob)
    (hb : b ∈ batch) (h0 : o 0 b = false) (h1 : o 1 b = false) (h2 : o 2 b = false) :
    (store_batch o batch).outcome = BatchOutcome.panics
    ∧ (store_batch o batch).uploaded = (store_batch o batch).stored.length
    ∧ (∀ c ∈ (store_batch o batch).stored, c ∈ batch ∧ ∃ r, r < 3 ∧ o r c = true)
    ∧ b ∈ (store_batch o batch).remaining
    ∧ (store_batch o batch).writes = batch.length
        + (batch.filter (fun c => !o 0 c)).length
        + ((batch.filter (fun c => !o 0 c)).filter (fun c => !o 1 c)).length := by
  have hbf2 : b ∈ ((batch.filter (fun c => !o 0 c)).filter (fun c => !o 1 c)).filter
      (fun c => !o 2 c) := by
    simp only [List.mem_filter]
    exact ⟨⟨⟨hb, by simp [h0]⟩, by simp [h1]⟩, by simp [h2]⟩
  have hbf1 : b ∈ (batch.filter (fun c => !o 0 c)).filter (fun c => !o 1 c) :=
    (List.mem_filter.mp hbf2).1
  have hbf0 : b ∈ batch.filter (fun c => !o 0 c) :=
    (List.mem_filter.mp hbf1).1
  have hne0 : ¬(batch.filter (fun c => !o 0 c)).isEmpty := by
    rw [List.isEmpty_iff]
    intro he
    rw [he] at hbf0
    simp at hbf0
  have hne1 : ¬((batch.filter (fun c => !o 0 c)).filter (fun c => !o 1 c)).isEmpty := by
    rw [List.isEmpty_iff]
    intro he
    rw [he] at hbf1
    simp at hbf1
  have hne2 : ¬(((batch.filter (fun c => !o 0 c)).filter (fun c => !o 1 c)).filter
      (fun c => !o 2 c)).isEmpty := by
    rw [List.isEmpty_iff]
    intro he
    rw [he] at hbf2
    simp at hbf2
  rw [store_batch_eq, if_neg hne0, if_neg hne1, if_neg hne2]
  refine ⟨rfl, by simp only [List.length_append], ?_, hbf2, rfl⟩
  intro c hc
  simp only [List.mem_append] at hc
  rcases hc with (hc | hc) | hc
  · have := List.mem_filter.mp hc
    exact ⟨this.1, 0, by omega, this.2⟩
  · have hin := List.mem_filter.mp hc
    have hin0 := List.mem_filter.mp hin.1
    exact ⟨hin0.1, 1, by omega, hin.2⟩
  · have hin := List.mem_filter.mp hc
    have hin1 := List.mem_filter.mp hin.1
    have hin0 := List.mem_filter.mp hin1.1
    exact ⟨hin0.1, 2, by omega, hin.2⟩

/-- C3 (witness): a singleton batch failing every round panics. -/
theorem c3_retry_exhaustion_witness :
    (store_batch (fun _ _ => false) [bW]).outcome = BatchOutcome.panics :=
  (c3_retry_exhaustion (fun _ _ => false) [bW] bW (by decide) rfl rfl rfl).1

/-- C8: an empty batch returns Ok immediately after a single attempt
round, with no write requests issued and no counter increments. -/
theorem c8_empty_batch (o : Nat → Blob → Bool) :
    store_batch o [] =
      { outcome := .ok, uploaded := 0, writes := 0, rounds := 1,
        stored := [], remaining := [] } := rfl

/-- C4: a body whose true length exceeds max_size fails with
SizeLimitExceeded during streaming; a body of length at most max_size
(in particular exactly max_size) succeeds in full, its content being the
untruncated concatenation of the streamed chunks; any Blob a successful
get returns has content bounded by max_size; and the declared
content-length is only a preallocation hint, with no effect on the
result. -/
theorem c4_size_bound :
    (∀ (path : String) (ms : Nat) (out : GetObjectOutput) (cs : List (List Nat)),
      out.body = some (okBody cs) → ms < totalLen cs →
      S3Backend.get path ms (.ok out) = GetOutcome.err StorageError.sizeLimitExceeded)
    ∧ (∀ (path : String) (ms : Nat) (out : GetObjectOutput) (cs : List (List Nat))
        (lm : String) (t : DateTime) (mime : String),
      out.body = some (okBody cs) → totalLen cs ≤ ms →
      out.last_modified = some lm → parse_timespec lm = .ok t →
      out.content_type = some mime →
      S3Backend.get path ms (.ok out) = GetOutcome.ok
        { path := path, mime := mime, date_updated := t,
          content := flattenChunks cs,
          compression := out.content_encoding.bind compressionFromStr })
    ∧ (∀ (path : String) (ms : Nat) (res : Except Unit GetObjectOutput) (b : Blob),
      S3Backend.get path ms res = GetOutcome.ok b → b.content.length ≤ ms)
    ∧ (∀ (path : String) (ms : Nat) (out : GetObjectOutput) (cl : Option Int),
      S3Backend.get path ms (.ok { out with content_length := cl })
        = S3Backend.get path ms (.ok out)) :=
  ⟨fun path ms out cs hbody hlen => get_overflow path ms out cs hbody hlen,
   fun path ms out cs lm t mime hbody hlen hlm ht hct =>
     get_ok_eq path ms out cs lm t mime hbody hlen hlm ht hct,
   fun path ms res b h => (get_ok_inv path ms res b h).2,
   fun _ _ _ _ => rfl⟩

/-- C4 (witness): a three-byte body fails at max_size 2 and succeeds
untruncated at max_size 3. -/
theorem c4_size_bound_witness :
    S3Backend.get "p" 2 (.ok respC) = GetOutcome.err StorageError.sizeLimitExceeded
    ∧ S3Backend.get "p" 3 (.ok respC) = GetOutcome.ok
        { path := "p", mime := "text/plain",
          date_updated := { naive := 0, zone := TimeZone.utc },
          content := flattenChunks [[1, 2], [3]], compression := none } :=
  ⟨c4_size_bound.1 "p" 2 respC [[1, 2], [3]] rfl (by decide),
   c4_size_bound.2.1 "p" 3 respC [[1, 2], [3]] "Thu, 1 Jan 1970 00:00:00 GMT"
     { naive := 0, zone := TimeZone.utc } "text/plain" rfl (by decide) rfl rfl rfl⟩

/-- C6: a recognized compression encoding round-trips losslessly through
its content-encoding label, and a successful response whose
content-encoding is absent, or carries an unrecognized label, still reads
successfully with the Blob compression field absent. -/
theorem c6_compression_best_effort :
    (∀ a : CompressionAlgorithm, compressionFromStr a.toLabel = some a)
    ∧ (∀ (path : String) (ms : Nat) (out : GetObjectOutput) (cs : List (List Nat))
        (lm : String) (t : DateTime) (mime : String),
      out.body = some (okBody cs) → totalLen cs ≤ ms →
      out.last_modified = some lm → parse_timespec lm = .ok t →
      out.content_type = some mime → out.content_encoding = none →
      S3Backend.get path ms (.ok out) = GetOutcome.ok
        { path := path, mime := mime, date_updated := t,
          content := flattenChunks cs, compression := none })
    ∧ (∀ (path : String) (ms : Nat) (out : GetObjectOutput) (cs : List (List Nat))
        (lm : String) (t : DateTime) (mime enc : String),
      out.body = some (okBody cs) → totalLen cs ≤ ms →
      out.last_modified = some lm → parse_timespec lm = .ok t →
      out.content_type = some mime → out.content_encoding = some enc →
      compressionFromStr enc = none →
      S3Backend.get path ms (.ok out) = GetOutcome.ok
        { path := path, mime := mime, date_updated := t,
          content := flattenChunks cs, compression := none }) := by
  refine ⟨?_, ?_, ?_⟩
  · intro a
    cases a
    rfl
  · intro path ms out cs lm t mime hbody hlen hlm ht hct henc
    rw [get_ok_eq path ms out cs lm t mime hbody hlen hlm ht hct, henc]
    rfl
  · intro path ms out cs lm t mime enc hbody hlen hlm ht hct henc hparse
    rw [get_ok_eq path ms out cs lm t mime hbody hlen hlm ht hct, henc]
    simp only [Option.some_bind, hparse]

/-- C6 (witness): an unrecognized content-encoding label on a concrete
successful response yields a Blob with no compression. -/
theorem c6_compression_best_effort_witness :
    S3Backend.get "p" 3 (.ok { respC with content_encoding := some "burrito" })
      = GetOutcome.ok
          { path := "p", mime := "text/plain",
            date_updated := { naive := 0, zone := TimeZone.utc },
            content := flattenChunks [[1, 2], [3]], compression := none } :=
  c6_compression_best_effort.2.2 "p" 3 { respC with content_encoding := some "burrito" }
    [[1, 2], [3]] "Thu, 1 Jan 1970 00:00:00 GMT" { naive := 0, zone := TimeZone.utc }
    "text/plain" "burrito" rfl (by decide) rfl rfl rfl rfl rfl

/-- C7: the backend factory yields no client when neither the AWS
access-key variable nor the force-override variable is present, yields no
client (still no fatal error) when credential-provider construction
fails, and yields a client only when one of the two variables is
present. -/
theorem c7_s3_client_fallback :
    (∀ (env : Env) (cr : Except String Creds),
      env.aws_access_key_id = none → env.force_s3 = none → s3_client env cr = none)
    ∧ (∀ (env : Env) (e : String), s3_client env (.error e) = none)
    ∧ (∀ (env : Env) (cr : Except String Creds) (c : S3ClientHandle),
      s3_client env cr = some c →
      env.aws_access_key_id ≠ none ∨ env.force_s3 ≠ none) := by
  refine ⟨?_, ?_, ?_⟩
  · intro env cr h1 h2
    simp [s3_client, h1, h2]
  · intro env e
    unfold s3_client
    split <;> rfl
  · intro env cr c h
    by_contra hc
    push_neg at hc
    rw [s3_client.eq_def, if_pos (by simp [hc.1, hc.2])] at h
    exact absurd h (by simp)

/-- C7 (witness): the empty environment yields no client even with
well-formed credentials. -/
theorem c7_s3_client_fallback_witness :
    s3_client envEmpty (.ok { material := "c" }) = none :=
  c7_s3_client_fallback.1 envEmpty (.ok { material := "c" }) rfl rfl

end DocsRs
